import Mathlib

/-!
Shallow embedding of the spreadsheet ingestion and dynamic-row serialization
pipeline of the membercommons repository (src/import.rs, src/main.rs),
together with theorems settling the frozen claims about it.

Conventions of the embedding:
* Rust `f64` values are modelled as exact rationals (`ℚ`).  The two priority
  thresholds (10_000_000.0 and 1_000_000.0) are exactly representable in
  binary64, so an f64 comparison against them coincides with the rational
  comparison of the float's exact value.
* Rust `String`/`&str` are Lean `String`; `str::trim` and
  `str::to_lowercase` are modelled on the character list (Rust's trim uses
  Unicode whitespace and Lean's `Char.isWhitespace` covers the ASCII cases
  exercised here; `to_lowercase` is modelled for ASCII).
* Database effects are modelled by explicit oracles: the result of
  attempting to insert a record, or the raw cells of a query-result row,
  are inputs to the embedded functions.
-/

/-- Models Rust `str::to_lowercase` (per-character lowercasing; ASCII). -/
def lowerStr (s : String) : String := String.mk (s.toList.map Char.toLower)

/-- Models Rust `str::trim`: drop whitespace from both ends. -/
def trimStr (s : String) : String :=
  String.mk (((s.toList.dropWhile Char.isWhitespace).reverse.dropWhile
    Char.isWhitespace).reverse)

/-- Function `leadsWith needle hay` models Rust `str::starts_with` on char lists. -/
def leadsWith : List Char → List Char → Bool
  | [], _ => true
  | _ :: _, [] => false
  | c :: cs, d :: ds => c == d && leadsWith cs ds

/-- Function `occursIn needle hay` models Rust `str::contains` (substring search). -/
def occursIn (needle : List Char) : List Char → Bool
  | [] => leadsWith needle []
  | c :: t => leadsWith needle (c :: t) || occursIn needle t

/-- Function `strContainsSub hay needle` models Rust `hay.contains(needle)`. -/
def strContainsSub (hay needle : String) : Bool :=
  occursIn needle.toList hay.toList

/-- Numeric value of a list of decimal digit characters. -/
def digitsVal (l : List Char) : Nat := l.foldl (fun n c => 10 * n + (c.toNat - 48)) 0

/-- Models Rust `str::parse::<f64>().ok()` for plain decimal literals
(optional sign, integer digits, optional fractional digits).  Exponent,
infinity and NaN forms are omitted; no claim depends on them. -/
def parseF64 (s : String) : Option ℚ :=
  let cs := s.toList
  let signed : ℚ × List Char :=
    match cs with
    | '-' :: t => (-1, t)
    | '+' :: t => (1, t)
    | t => (1, t)
  let ip := signed.2.takeWhile Char.isDigit
  let rest := signed.2.dropWhile Char.isDigit
  match rest with
  | [] => if ip.isEmpty then none else some (signed.1 * digitsVal ip)
  | '.' :: fp =>
    if fp.all Char.isDigit && !(ip.isEmpty && fp.isEmpty) then
      some (signed.1 * ((digitsVal ip : ℚ) + (digitsVal fp : ℚ) / (10 ^ fp.length)))
    else none
  | _ => none

/-- Left-pad a string with zeros to length `k`. -/
def padZeros (s : String) (k : Nat) : String :=
  String.mk (List.replicate (k - s.length) '0' ++ s.toList)

/-- Models Rust `f64::to_string` (`Display`) under the convention that the
model rational is the float's shortest round-tripping decimal: renders the
exact decimal expansion when the denominator divides a power of ten. -/
def floatToString (q : ℚ) : String :=
  match (List.range 400).find? (fun k => 10 ^ k % q.den == 0) with
  | some k =>
    let scaled := q.num.natAbs * 10 ^ k / q.den
    let sign := if q.num < 0 then "-" else ""
    if k == 0 then sign ++ toString scaled
    else sign ++ toString (scaled / 10 ^ k) ++ "." ++ padZeros (toString (scaled % 10 ^ k)) k
  | none => toString q.num ++ "/" ++ toString q.den

/-- Structure `ProjectRecord` from src/import.rs: the normalized record produced by
`read_excel_file`.  `committed : Option<f64>` is modelled as `Option ℚ`. -/
structure ProjectRecord where
  fiscal_year : Option String
  project_number : Option String
  project_type : Option String
  region : Option String
  country : Option String
  department : Option String
  framework : Option String
  project_name : Option String
  committed : Option ℚ
  naics_sector : Option String
  project_description : Option String
  project_profile_url : Option String
deriving DecidableEq, Repr

/-- The all-`None` record that `read_excel_file` starts each row from. -/
def emptyRecord : ProjectRecord :=
  { fiscal_year := none, project_number := none, project_type := none
  , region := none, country := none, department := none, framework := none
  , project_name := none, committed := none, naics_sector := none
  , project_description := none, project_profile_url := none }

/-- Priority derivation of `insert_project_record` (src/import.rs:273-278):
match on the committed amount with guards `>= 10_000_000.0`,
`>= 1_000_000.0`, any other present amount, and `None`. -/
def computePriority (committed : Option ℚ) : Option String :=
  match committed with
  | some amount =>
    if amount ≥ 10000000 then some "High"
    else if amount ≥ 1000000 then some "Medium"
    else some "Low"
  | none => none

/-- Status derivation of `insert_project_record` (src/import.rs:281-286):
case-insensitive substring guards on the project type, defaulting to
"Active". -/
def computeStatus (project_type : Option String) : Option String :=
  match project_type with
  | some pt =>
    if strContainsSub (lowerStr pt) "active" then some "Active"
    else if strContainsSub (lowerStr pt) "planned" then some "Planning"
    else if strContainsSub (lowerStr pt) "completed" then some "Completed"
    else some "Active"
  | none => some "Active"

/-- The description parts pushed by `insert_project_record`
(src/import.rs:236-264), in source order. -/
def descriptionParts (r : ProjectRecord) : List String :=
  r.project_description.toList
    ++ (r.department.map (fun d => "Department: " ++ d)).toList
    ++ (r.region.map (fun x => "Region: " ++ x)).toList
    ++ (r.country.map (fun x => "Country: " ++ x)).toList
    ++ (r.framework.map (fun x => "Framework: " ++ x)).toList
    ++ (r.naics_sector.map (fun x => "NAICS Sector: " ++ x)).toList
    ++ (r.project_profile_url.map (fun x => "Profile URL: " ++ x)).toList

/-- Description derivation of `insert_project_record` (src/import.rs:266-270):
`None` when no part is present, otherwise the parts joined by `"\n\n"`. -/
def computeDescription (r : ProjectRecord) : Option String :=
  let parts := descriptionParts r
  if parts.isEmpty then none else some (String.intercalate "\n\n" parts)

/-- Model of calamine's `Data` cell enum, restricted to the variants the
sheets under test contain (Empty, String, Float, Int, Bool); the remaining
calamine variants (date/duration/error cells) hit the `_` fallback arm of
`read_excel_file` and are not exercised by any claim. -/
inductive Data where
  | Empty : Data
  | Str : String → Data
  | Float : ℚ → Data
  | IntV : ℤ → Data
  | BoolV : Bool → Data
deriving DecidableEq, Repr

/-- Models calamine's `Data::to_string` (its `Display`). -/
def Data.toStr : Data → String
  | .Empty => ""
  | .Str s => s
  | .Float f => floatToString f
  | .IntV i => toString i
  | .BoolV b => if b then "true" else "false"

/-- The per-cell conversion of `read_excel_file` (src/import.rs:185-192):
empty cells become `None`, string cells are trimmed and empty-after-trim
becomes `None`, numeric and boolean cells are stringified. -/
def cellValue : Data → Option String
  | .Empty => none
  | .Str s => if trimStr s = "" then none else some (trimStr s)
  | .Float f => some (floatToString f)
  | .IntV i => some (toString i)
  | .BoolV b => some (if b then "true" else "false")

/-- The header dispatch of `read_excel_file` (src/import.rs:194-210): assign
the converted cell value to the field named by the canonical header;
"committed" is parsed back to a number; unknown headers are ignored. -/
def applyCell (r : ProjectRecord) (header : String) (value : Option String) :
    ProjectRecord :=
  match header with
  | "fiscal year" => { r with fiscal_year := value }
  | "project number" => { r with project_number := value }
  | "project type" => { r with project_type := value }
  | "region" => { r with region := value }
  | "country" => { r with country := value }
  | "department" => { r with department := value }
  | "framework" => { r with framework := value }
  | "project name" => { r with project_name := value }
  | "committed" => { r with committed := value.bind parseF64 }
  | "naics sector" => { r with naics_sector := value }
  | "project description" => { r with project_description := value }
  | "project profile url" => { r with project_profile_url := value }
  | _ => r

/-- The header map built from the first row of the sheet
(src/import.rs:159-164): column index paired with the lower-cased, trimmed
cell text.  An association list stands in for the `HashMap`; its keys (the
column indices produced by `enumerate`) are distinct by construction. -/
def headersOf (headerRow : List Data) : List (Nat × String) :=
  headerRow.enum.map (fun ic => (ic.1, trimStr (lowerStr ic.2.toStr)))

/-- One data row of `read_excel_file` (src/import.rs:167-212): fold the
cells over the record, dispatching each through the header map. -/
def rowToRecord (headers : List (Nat × String)) (row : List Data) :
    ProjectRecord :=
  row.enum.foldl
    (fun r ic =>
      match headers.lookup ic.1 with
      | some h => applyCell r h (cellValue ic.2)
      | none => r)
    emptyRecord

/-- Embedding of `read_excel_file` from the worksheet range onward (src/import.rs:155-220):
first row gives the headers, every later row is mapped to a record, and only
records with a present project name are kept.  Opening the workbook and
resolving the sheet name are I/O modelled upstream of this function. -/
def readSheet (rows : List (List Data)) : List ProjectRecord :=
  match rows with
  | [] => []
  | headerRow :: dataRows =>
    (dataRows.map (rowToRecord (headersOf headerRow))).filter
      (fun r => r.project_name.isSome)

/-- Structure `ImportResponse` from src/import.rs. -/
structure ImportResponse where
  success : Bool
  message : String
  records_processed : Option Nat
  records_inserted : Option Nat
  errors : List String
deriving DecidableEq, Repr

/-- The per-row error string of `import_excel_data` (src/import.rs:72):
`format!("Row {}: {}", index + 1, e)`. -/
def rowError (index : Nat) (e : String) : String :=
  "Row " ++ toString (index + 1) ++ ": " ++ e

/-- The insertion loop of `import_excel_data` (src/import.rs:65-75).  The
database is modelled by an oracle `db` giving the outcome of
`insert_project_record` for the record attempted at each 0-based index.
Returns `(inserted_count, errors)`. -/
def importLoop (db : Nat → ProjectRecord → Except String Unit)
    (records : List ProjectRecord) : Nat × List String :=
  records.enum.foldl
    (fun acc ir =>
      match db ir.1 ir.2 with
      | .ok _ => (acc.1 + 1, acc.2)
      | .error e => (acc.1, acc.2 ++ [rowError ir.1 e]))
    (0, [])

/-- Embedding of `import_excel_data` (src/import.rs:44-88) after a successful
`read_excel_file`: run the insertion loop and assemble the response. -/
def import_excel_data (db : Nat → ProjectRecord → Except String Unit)
    (records : List ProjectRecord) : ImportResponse :=
  let inserted_count := (importLoop db records).1
  let errors := (importLoop db records).2
  let total_records := records.length
  { success := errors.isEmpty || decide (0 < inserted_count)
  , message :=
      if errors.isEmpty then
        "Successfully imported " ++ toString inserted_count ++ " records"
      else
        "Imported " ++ toString inserted_count ++ " of "
          ++ toString total_records ++ " records with "
          ++ toString errors.length ++ " errors"
  , records_processed := some total_records
  , records_inserted := some inserted_count
  , errors := errors }

/-- Model of a raw column value as seen by `execute_safe_query`
(src/main.rs:1311-1326): the raw cell may be unreadable
(`try_get_raw` errs), null, decodable as text, or non-null but not
decodable as text. -/
inductive RawCell where
  | unreadable : RawCell
  | null : RawCell
  | text : String → RawCell
  | nontext : RawCell
deriving DecidableEq, Repr

/-- Model of the JSON values `execute_safe_query` produces. -/
inductive JsonVal where
  | null : JsonVal
  | str : String → JsonVal
  | obj : List (String × JsonVal) → JsonVal
  | arr : List JsonVal → JsonVal

/-- The per-column conversion of `execute_safe_query`
(src/main.rs:1311-1326): null becomes JSON null, text becomes a JSON
string, a non-text value becomes the placeholder "Non-string value", and an
unreadable raw value becomes "Error reading value". -/
def serializeCell : RawCell → JsonVal
  | .null => .null
  | .text s => .str s
  | .nontext => .str "Non-string value"
  | .unreadable => .str "Error reading value"

/-- Models `serde_json::Map::insert`: replace the value at an existing key,
otherwise add the key.  (The underlying map stores keys uniquely; iteration
order of the Rust map is not relied on by any claim.) -/
def mapInsert (m : List (String × JsonVal)) (k : String) (v : JsonVal) :
    List (String × JsonVal) :=
  if m.any (fun p => p.1 == k) then
    m.map (fun p => if p.1 == k then (k, v) else p)
  else m ++ [(k, v)]

/-- One result row of `execute_safe_query` (src/main.rs:1308-1331): insert
each column's serialized value into the row map in column order. -/
def serializeRow (cols : List (String × RawCell)) : List (String × JsonVal) :=
  cols.foldl (fun m c => mapInsert m c.1 (serializeCell c.2)) []

/-- Embedding of `execute_safe_query` (src/main.rs:1304-1336) after the rows are fetched:
each row, given as its list of (column name, raw value) pairs, becomes a
JSON object, and the rows form a JSON array. -/
def execute_safe_query (rows : List (List (String × RawCell))) : JsonVal :=
  .arr (rows.map (fun r => .obj (serializeRow r)))

/-- Model of the HTTP responses `db_execute_query` can produce. -/
inductive DbResponse where
  | badRequest : String → DbResponse
  | okResponse : JsonVal → DbResponse
  | serverError : String → DbResponse

/-- The select-only guard of `db_execute_query` (src/main.rs:706-714):
trim the query, lower-case it, and test `starts_with("select")`. -/
def queryGuardAccepts (q : String) : Bool :=
  leadsWith "select".toList (lowerStr (trimStr q)).toList

/-- Embedding of `db_execute_query` (src/main.rs:701-730): reject non-select queries with
a 400 Bad Request before executing anything; otherwise the response is
determined by the outcome of `execute_safe_query`, modelled by the
`exec` oracle. -/
def db_execute_query (q : String) (exec : Except String JsonVal) :
    DbResponse :=
  if queryGuardAccepts q then
    match exec with
    | .ok v => .okResponse v
    | .error e => .serverError ("Query failed: " ++ e)
  else
    .badRequest "Only SELECT queries are allowed"

/-- Predicate `insOk db ir` holds when the insertion attempt for the enumerated record
`ir` succeeds. -/
def insOk (db : Nat → ProjectRecord → Except String Unit)
    (ir : Nat × ProjectRecord) : Bool :=
  match db ir.1 ir.2 with
  | .ok _ => true
  | .error _ => false

/-- Value `errEntry db ir` is the error-list entry the enumerated record `ir`
contributes, if its insertion fails. -/
def errEntry (db : Nat → ProjectRecord → Except String Unit)
    (ir : Nat × ProjectRecord) : Option String :=
  match db ir.1 ir.2 with
  | .error e => some (rowError ir.1 e)
  | .ok _ => none

lemma importLoop_foldl (db : Nat → ProjectRecord → Except String Unit)
    (l : List (Nat × ProjectRecord)) (n : Nat) (acc : List String) :
    l.foldl
      (fun acc ir =>
        match db ir.1 ir.2 with
        | .ok _ => (acc.1 + 1, acc.2)
        | .error e => (acc.1, acc.2 ++ [rowError ir.1 e]))
      (n, acc)
    = (n + l.countP (insOk db), acc ++ l.filterMap (errEntry db)) := by
  induction l generalizing n acc with
  | nil => simp
  | cons ir t ih =>
    rcases hir : db ir.1 ir.2 with v | e
    · simp only [List.foldl_cons, hir, ih, List.countP_cons, List.filterMap_cons,
        insOk, errEntry, hir, Prod.mk.injEq]
      refine ⟨by simp; try omega, by simp⟩
    · simp only [List.foldl_cons, hir, ih, List.countP_cons, List.filterMap_cons,
        insOk, errEntry, hir, Prod.mk.injEq]
      refine ⟨by simp; try omega, by simp⟩

lemma importLoop_spec (db : Nat → ProjectRecord → Except String Unit)
    (records : List ProjectRecord) :
    importLoop db records
      = (records.enum.countP (insOk db), records.enum.filterMap (errEntry db)) := by
  simpa [importLoop] using importLoop_foldl db records.enum 0 []

lemma countP_insOk_add_filterMap_errEntry
    (db : Nat → ProjectRecord → Except String Unit)
    (l : List (Nat × ProjectRecord)) :
    l.countP (insOk db) + (l.filterMap (errEntry db)).length = l.length := by
  induction l with
  | nil => simp
  | cons ir t ih =>
    rcases hir : db ir.1 ir.2 with v | e
    · simp only [List.countP_cons, List.filterMap_cons, insOk, errEntry, hir]
      simp only [List.length_cons]
      simp
      omega
    · simp only [List.countP_cons, List.filterMap_cons, insOk, errEntry, hir]
      simp only [List.length_cons]
      simp
      omega

/-- C1: for every import batch, the response's success flag is true iff the
error list is empty or at least one record was inserted; the batch is
reported as failed exactly when there is at least one error and zero
insertions; in particular three records all failing persistence yield
success = false, records_inserted = 0 and three error entries. -/
theorem import_success_flag (db : Nat → ProjectRecord → Except String Unit)
    (records : List ProjectRecord) :
    ((import_excel_data db records).success = true ↔
      ((import_excel_data db records).errors = []
        ∨ ∃ n, (import_excel_data db records).records_inserted = some n ∧ 0 < n))
    ∧ ((import_excel_data db records).success = false ↔
      ((import_excel_data db records).errors ≠ []
        ∧ (import_excel_data db records).records_inserted = some 0))
    ∧ (import_excel_data (fun _ _ => .error "db error")
        [emptyRecord, emptyRecord, emptyRecord]).success = false
    ∧ (import_excel_data (fun _ _ => .error "db error")
        [emptyRecord, emptyRecord, emptyRecord]).records_inserted = some 0
    ∧ (import_excel_data (fun _ _ => .error "db error")
        [emptyRecord, emptyRecord, emptyRecord]).errors.length = 3 := by
  refine ⟨?_, ?_, by decide, by decide, by decide⟩
  · simp [import_excel_data, List.isEmpty_iff]
  · simp [import_excel_data, List.isEmpty_iff]

/-- C2: for every import batch over `n` records, records_processed is `n`,
records_inserted counts exactly the successful insertion attempts, the error
list is exactly the failing attempts in input order — each failing record
contributing one entry stamped with its 1-based input index via `rowError` —
and records_inserted plus the number of errors equals `n`. -/
theorem import_batch_accounting (db : Nat → ProjectRecord → Except String Unit)
    (records : List ProjectRecord) :
    (import_excel_data db records).records_processed = some records.length
    ∧ (import_excel_data db records).records_inserted
        = some (records.enum.countP (insOk db))
    ∧ (import_excel_data db records).errors
        = records.enum.filterMap (errEntry db)
    ∧ (importLoop db records).1 + (importLoop db records).2.length
        = records.length := by
  refine ⟨rfl, ?_, ?_, ?_⟩
  · simp [import_excel_data, importLoop_spec]
  · simp [import_excel_data, importLoop_spec]
  · rw [importLoop_spec]
    simpa using countP_insOk_add_filterMap_errEntry db records.enum

/-- C3: the derived priority is "High" for a present committed amount of at
least 10,000,000, "Medium" for a present amount in [1,000,000, 10,000,000),
"Low" for a present amount below 1,000,000, and absent when the amount is
absent. -/
theorem priority_rule (a : ℚ) :
    (10000000 ≤ a → computePriority (some a) = some "High")
    ∧ (1000000 ≤ a → a < 10000000 → computePriority (some a) = some "Medium")
    ∧ (a < 1000000 → computePriority (some a) = some "Low")
    ∧ computePriority none = none := by
  refine ⟨fun h => ?_, fun h1 h2 => ?_, fun h => ?_, rfl⟩
  · simp [computePriority, h]
  · simp [computePriority, h1, not_le.mpr h2]
  · simp [computePriority, not_le.mpr h,
      not_le.mpr (h.trans (by norm_num : (1000000 : ℚ) < 10000000))]

/-- Witness for `priority_rule` at concrete amounts in each band. -/
theorem priority_rule_witness :
    computePriority (some 12000000) = some "High"
    ∧ computePriority (some 2000000) = some "Medium"
    ∧ computePriority (some 500) = some "Low"
    ∧ computePriority none = none :=
  ⟨(priority_rule 12000000).1 (by norm_num),
   (priority_rule 2000000).2.1 (by norm_num) (by norm_num),
   (priority_rule 500).2.2.1 (by norm_num),
   (priority_rule 0).2.2.2⟩

/-- C4 as stated is false on the code: an amount of 9,999,999.99 is at least
1,000,000 and below 10,000,000, so the priority derivation yields "Medium",
not the "Low" the claim lists for that boundary value. -/
theorem priority_boundary_claim_false :
    ¬ (computePriority (some (999999999 / 100 : ℚ)) = some "Low") := by
  norm_num [computePriority]
  decide

/-- C4 amended: the boundary values evaluate to
9,999,999.99 → "Medium", 10,000,000.00 → "High", 999,999.99 → "Low",
1,000,000.00 → "Medium", absent amount → absent priority. -/
theorem priority_boundaries :
    computePriority (some (999999999 / 100 : ℚ)) = some "Medium"
    ∧ computePriority (some 10000000) = some "High"
    ∧ computePriority (some (99999999 / 100 : ℚ)) = some "Low"
    ∧ computePriority (some 1000000) = some "Medium"
    ∧ computePriority none = none := by
  refine ⟨?_, ?_, ?_, ?_, rfl⟩ <;> norm_num [computePriority]

/-- C5: the derived status is computed from the project-type text by
case-insensitive substring checks in precedence order — "active" gives
"Active", else "planned" gives "Planning", else "completed" gives
"Completed" — and every other case, including an absent type, gives
"Active". -/
theorem status_rule (pt : String) :
    (strContainsSub (lowerStr pt) "active" = true →
      computeStatus (some pt) = some "Active")
    ∧ (strContainsSub (lowerStr pt) "active" = false →
       strContainsSub (lowerStr pt) "planned" = true →
      computeStatus (some pt) = some "Planning")
    ∧ (strContainsSub (lowerStr pt) "active" = false →
       strContainsSub (lowerStr pt) "planned" = false →
       strContainsSub (lowerStr pt) "completed" = true →
      computeStatus (some pt) = some "Completed")
    ∧ (strContainsSub (lowerStr pt) "active" = false →
       strContainsSub (lowerStr pt) "planned" = false →
       strContainsSub (lowerStr pt) "completed" = false →
      computeStatus (some pt) = some "Active")
    ∧ computeStatus none = some "Active" := by
  refine ⟨fun h1 => ?_, fun h1 h2 => ?_, fun h1 h2 h3 => ?_,
    fun h1 h2 h3 => ?_, rfl⟩ <;> simp [computeStatus, h1, *]

/-- Witness for `status_rule` at the spec's example inputs. -/
theorem status_rule_witness :
    computeStatus (some "Active Phase 2") = some "Active"
    ∧ computeStatus (some "Planned for Q3") = some "Planning"
    ∧ computeStatus (some "completed early") = some "Completed"
    ∧ computeStatus (some "on hold") = some "Active"
    ∧ computeStatus none = some "Active" :=
  ⟨(status_rule "Active Phase 2").1 (by decide),
   (status_rule "Planned for Q3").2.1 (by decide) (by decide),
   (status_rule "completed early").2.2.1 (by decide) (by decide) (by decide),
   (status_rule "on hold").2.2.2.1 (by decide) (by decide) (by decide),
   (status_rule "").2.2.2.2⟩

/-- C6: every data row whose mapped record lacks a project name is excluded
from the Reader's output — the returned sequence is exactly the mapped rows
filtered to those with a present project name, its length counts exactly the
rows whose mapped record has a present name, and every returned record has a
present project name.  No error entries exist on this path (the Reader
returns only records). -/
theorem primary_field_filter (headerRow : List Data)
    (dataRows : List (List Data)) :
    (∀ r ∈ readSheet (headerRow :: dataRows), r.project_name.isSome = true)
    ∧ (readSheet (headerRow :: dataRows)).length
        = dataRows.countP
            (fun row => (rowToRecord (headersOf headerRow) row).project_name.isSome)
    ∧ readSheet (headerRow :: dataRows)
        = (dataRows.map (rowToRecord (headersOf headerRow))).filter
            (fun r => r.project_name.isSome) := by
  refine ⟨?_, ?_, rfl⟩
  · intro r hr
    exact (List.mem_filter.mp hr).2
  · show ((dataRows.map (rowToRecord (headersOf headerRow))).filter _).length = _
    rw [← List.countP_eq_length_filter, List.countP_map]
    rfl

/-- Witness for `primary_field_filter`: a sheet of five data rows whose third
row has a blank project-name cell yields four records, all with a present
name. -/
theorem primary_field_filter_witness :
    (readSheet [[Data.Str "Project Name"], [Data.Str "A"], [Data.Str "B"],
        [Data.Empty], [Data.Str "D"], [Data.Str "E"]]).length = 4
    ∧ ∀ r ∈ readSheet [[Data.Str "Project Name"], [Data.Str "A"],
        [Data.Str "B"], [Data.Empty], [Data.Str "D"], [Data.Str "E"]],
        r.project_name.isSome = true :=
  ⟨by decide,
   (primary_field_filter [Data.Str "Project Name"]
     [[Data.Str "A"], [Data.Str "B"], [Data.Empty], [Data.Str "D"],
      [Data.Str "E"]]).1⟩

lemma optToList_eq_nil {α : Type} (o : Option α) : o.toList = [] ↔ o = none := by
  cases o <;> simp

lemma descriptionParts_eq_nil (r : ProjectRecord) :
    descriptionParts r = [] ↔
      (r.project_description = none ∧ r.department = none ∧ r.region = none
       ∧ r.country = none ∧ r.framework = none ∧ r.naics_sector = none
       ∧ r.project_profile_url = none) := by
  simp [descriptionParts, List.append_eq_nil, optToList_eq_nil,
    Option.map_eq_none']

/-- C7: the derived description concatenates, in the fixed order primary
description, department, region, country, framework, NAICS sector, profile
URL, every present field as a labeled part, joined by blank lines; absent
fields contribute nothing, and when no part is present the description is
absent rather than an empty string. -/
theorem description_rule (r : ProjectRecord) :
    (computeDescription r = none ↔
      (r.project_description = none ∧ r.department = none ∧ r.region = none
       ∧ r.country = none ∧ r.framework = none ∧ r.naics_sector = none
       ∧ r.project_profile_url = none))
    ∧ (∀ d dep reg cty fw na url : String,
        computeDescription
          { emptyRecord with
              project_description := some d, department := some dep,
              region := some reg, country := some cty, framework := some fw,
              naics_sector := some na, project_profile_url := some url }
          = some (d ++ "\n\n" ++ ("Department: " ++ dep) ++ "\n\n"
              ++ ("Region: " ++ reg) ++ "\n\n" ++ ("Country: " ++ cty) ++ "\n\n"
              ++ ("Framework: " ++ fw) ++ "\n\n" ++ ("NAICS Sector: " ++ na)
              ++ "\n\n" ++ ("Profile URL: " ++ url)))
    ∧ (∀ dep : String,
        computeDescription { emptyRecord with department := some dep }
          = some ("Department: " ++ dep)) := by
  refine ⟨?_, ?_, ?_⟩
  · rw [← descriptionParts_eq_nil]
    unfold computeDescription
    rcases h : descriptionParts r with _ | ⟨p, ps⟩
    · simp [h]
    · simp [h]
  · intro d dep reg cty fw na url
    rfl
  · intro dep
    rfl

/-- Witness for `description_rule`: the empty record yields an absent
description; a lone department yields its labeled line. -/
theorem description_rule_witness :
    computeDescription emptyRecord = none
    ∧ computeDescription { emptyRecord with department := some "Engineering" }
        = some ("Department: " ++ "Engineering") :=
  ⟨(description_rule emptyRecord).1.mpr ⟨rfl, rfl, rfl, rfl, rfl, rfl, rfl⟩,
   (description_rule emptyRecord).2.2 "Engineering"⟩

lemma mapInsert_of_not_key (m : List (String × JsonVal)) (k : String)
    (v : JsonVal) (h : k ∉ m.map Prod.fst) :
    mapInsert m k v = m ++ [(k, v)] := by
  have hany : m.any (fun p => p.1 == k) = false := by
    rw [Bool.eq_false_iff]
    intro hc
    rcases List.any_eq_true.mp hc with ⟨p, hp, hpk⟩
    exact h (List.mem_map.mpr ⟨p, hp, (beq_iff_eq.mp hpk)⟩)
  simp [mapInsert, hany]

lemma serializeRow_foldl (cols : List (String × RawCell)) :
    ∀ (acc : List (String × JsonVal)),
    (cols.map Prod.fst).Nodup →
    (∀ c ∈ cols, c.1 ∉ acc.map Prod.fst) →
    cols.foldl (fun m c => mapInsert m c.1 (serializeCell c.2)) acc
      = acc ++ cols.map (fun c => (c.1, serializeCell c.2)) := by
  induction cols with
  | nil => intro acc _ _; simp
  | cons c t ih =>
    intro acc hnd hdisj
    rw [List.foldl_cons,
      mapInsert_of_not_key acc c.1 (serializeCell c.2)
        (hdisj c (List.mem_cons_self c t))]
    rw [ih (acc ++ [(c.1, serializeCell c.2)])
      (by simpa using (List.nodup_cons.mp (by simpa using hnd)).2) ?_]
    · simp
    · intro d hd
      simp only [List.map_append, List.mem_append]
      rintro (hmem | hmem)
      · exact hdisj d (List.mem_cons_of_mem c hd) hmem
      · have hfst : d.1 = c.1 := by simpa using hmem
        have : c.1 ∉ t.map Prod.fst :=
          (List.nodup_cons.mp (by simpa using hnd)).1
        exact this (hfst ▸ List.mem_map.mpr ⟨d, hd, rfl⟩)

/-- C8: for a result row with distinct column names, the serialized row maps
each column, in order, to the serialization of its raw value; a null raw
value produces JSON null (a present field, and not the string "null"), a
text value produces that text as a JSON string, and a non-null value that
fails to decode as text produces the fixed placeholder "Non-string value"
rather than failing the row. -/
theorem dynamic_row_serialization (cols : List (String × RawCell))
    (hnd : (cols.map Prod.fst).Nodup) :
    serializeRow cols = cols.map (fun c => (c.1, serializeCell c.2))
    ∧ (∀ n, (n, RawCell.null) ∈ cols →
        (n, JsonVal.null) ∈ serializeRow cols)
    ∧ serializeCell RawCell.null = JsonVal.null
    ∧ JsonVal.null ≠ JsonVal.str "null"
    ∧ (∀ s, serializeCell (RawCell.text s) = JsonVal.str s)
    ∧ serializeCell RawCell.nontext = JsonVal.str "Non-string value" := by
  have hrow : serializeRow cols = cols.map (fun c => (c.1, serializeCell c.2)) := by
    have := serializeRow_foldl cols [] hnd (by simp)
    simpa [serializeRow] using this
  refine ⟨hrow, ?_, rfl, fun h => JsonVal.noConfusion h, fun s => rfl, rfl⟩
  intro n hn
  rw [hrow]
  exact List.mem_map.mpr ⟨(n, RawCell.null), hn, rfl⟩

/-- Witness for `dynamic_row_serialization`: a two-column row with a null
column and a text column serializes to JSON null and a JSON string. -/
theorem dynamic_row_serialization_witness :
    serializeRow [("a", RawCell.null), ("b", RawCell.text "x")]
      = [("a", JsonVal.null), ("b", JsonVal.str "x")] := by
  rw [(dynamic_row_serialization [("a", RawCell.null), ("b", RawCell.text "x")]
    (by decide)).1]
  rfl

lemma leadsWith_iff_take (n : List Char) :
    ∀ h : List Char, leadsWith n h = true ↔ h.take n.length = n := by
  induction n with
  | nil => intro h; simp [leadsWith]
  | cons c cs ih =>
    intro h
    cases h with
    | nil => simp [leadsWith]
    | cons d ds =>
      rw [show leadsWith (c :: cs) (d :: ds) = (c == d && leadsWith cs ds)
        from rfl, Bool.and_eq_true, beq_iff_eq]
      simp only [List.length_cons, List.take_succ_cons, List.cons.injEq]
      rw [ih ds]
      constructor
      · rintro ⟨h1, h2⟩; exact ⟨h1.symm, h2⟩
      · rintro ⟨h1, h2⟩; exact ⟨h1.symm, h2⟩

lemma lowerStr_toList (s : String) :
    (lowerStr s).toList = s.toList.map Char.toLower := rfl

/-- C9: the ad-hoc query endpoint accepts a query — its response is then
determined by the execution outcome — if and only if the trimmed query's
first six characters, lower-cased, spell "select"; otherwise it is rejected
with the fixed 400 Bad Request response regardless of (and before) any
execution.  In particular " Select 1" is accepted and "update t set x=1" is
rejected. -/
theorem select_only_guard (q : String) (exec : Except String JsonVal) :
    (queryGuardAccepts q = true ↔
      ((trimStr q).toList.take 6).map Char.toLower = "select".toList)
    ∧ (queryGuardAccepts q = false →
        db_execute_query q exec
          = DbResponse.badRequest "Only SELECT queries are allowed")
    ∧ (queryGuardAccepts q = true →
        db_execute_query q exec
          = match exec with
            | .ok v => DbResponse.okResponse v
            | .error e => DbResponse.serverError ("Query failed: " ++ e))
    ∧ queryGuardAccepts " Select 1" = true
    ∧ queryGuardAccepts "update t set x=1" = false := by
  refine ⟨?_, fun h => ?_, fun h => ?_, by decide, by decide⟩
  · unfold queryGuardAccepts
    rw [leadsWith_iff_take, show ("select".toList).length = 6 from rfl,
      lowerStr_toList, ← List.map_take]
  · simp [db_execute_query, h]
  · simp [db_execute_query, h]

/-- Witness for `select_only_guard`: a non-select query is rejected with the
fixed Bad Request response without consulting the execution outcome. -/
theorem select_only_guard_witness :
    db_execute_query "update t set x=1" (Except.ok (JsonVal.arr []))
      = DbResponse.badRequest "Only SELECT queries are allowed"
    ∧ db_execute_query " Select 1" (Except.ok (JsonVal.arr []))
      = DbResponse.okResponse (JsonVal.arr []) :=
  ⟨(select_only_guard "update t set x=1" (Except.ok (JsonVal.arr []))).2.1
     (by decide),
   (select_only_guard " Select 1" (Except.ok (JsonVal.arr []))).2.2.1
     (by decide)⟩

/-- C10: a string cell is trimmed before being mapped to a field, a string
cell that is empty or whitespace-only becomes absent exactly like an empty
cell, and a data row whose project-name cell is whitespace-only is dropped
by the primary-field filter. -/
theorem string_cell_trimming (s : String) :
    (trimStr s = "" →
      cellValue (Data.Str s) = none
      ∧ cellValue (Data.Str s) = cellValue Data.Empty
      ∧ readSheet [[Data.Str "Project Name"], [Data.Str s]] = [])
    ∧ (trimStr s ≠ "" → cellValue (Data.Str s) = some (trimStr s)) := by
  constructor
  · intro h
    refine ⟨by simp [cellValue, h], by simp [cellValue, h], ?_⟩
    have hdr : headersOf [Data.Str "Project Name"] = [(0, "project name")] := by
      decide
    simp [readSheet, hdr, rowToRecord, List.enum, List.enumFrom, applyCell,
      cellValue, h, emptyRecord, List.lookup]
  · intro h
    simp [cellValue, h]

/-- Witness for `string_cell_trimming`: a whitespace-only cell is absent and
its row is dropped; a padded cell is trimmed. -/
theorem string_cell_trimming_witness :
    cellValue (Data.Str "   ") = none
    ∧ readSheet [[Data.Str "Project Name"], [Data.Str "   "]] = []
    ∧ cellValue (Data.Str "  x ") = some "x" :=
  ⟨((string_cell_trimming "   ").1 (by decide)).1,
   ((string_cell_trimming "   ").1 (by decide)).2.2,
   ((string_cell_trimming "  x ").2 (by decide)).trans (by decide)⟩

/-- Witness for `import_success_flag`: a one-record batch whose insertion
succeeds is reported as successful. -/
theorem import_success_flag_witness :
    (import_excel_data (fun _ _ => Except.ok ()) [emptyRecord]).success
      = true :=
  ((import_success_flag (fun _ _ => Except.ok ()) [emptyRecord]).1).mpr
    (Or.inl (by decide))

/-- Witness for `import_batch_accounting`: two records, the first inserted
and the second failing, give processed 2, inserted 1, and the single error
entry stamped with 1-based row index 2. -/
theorem import_batch_accounting_witness :
    (import_excel_data
        (fun i _ => if i == 0 then Except.ok () else Except.error "boom")
        [emptyRecord, emptyRecord]).records_processed = some 2
    ∧ (import_excel_data
        (fun i _ => if i == 0 then Except.ok () else Except.error "boom")
        [emptyRecord, emptyRecord]).records_inserted = some 1
    ∧ (import_excel_data
        (fun i _ => if i == 0 then Except.ok () else Except.error "boom")
        [emptyRecord, emptyRecord]).errors = ["Row 2: boom"] :=
  ⟨((import_batch_accounting
      (fun i _ => if i == 0 then Except.ok () else Except.error "boom")
      [emptyRecord, emptyRecord]).1).trans (by decide),
   ((import_batch_accounting
      (fun i _ => if i == 0 then Except.ok () else Except.error "boom")
      [emptyRecord, emptyRecord]).2.1).trans (by decide),
   ((import_batch_accounting
      (fun i _ => if i == 0 then Except.ok () else Except.error "boom")
      [emptyRecord, emptyRecord]).2.2.1).trans (by decide)⟩
